import Mathlib

/-!
Shallow embedding of the zipkin span fragment (tracing/zipkin/span.go):
the Span data model, the binary-annotation encoder (`AnnotateBinary`),
the span options (`ServerAddr`, `Host`, `Debug`), the child-span factory
(`NewChildSpan`) with its one-shot finalize closure, and `Encode`.

Modelling conventions:
- Go machine integers are `Int`/`Nat` with explicit `% 2 ^ w` truncation at
  the points where Go performs a narrowing or sign-reinterpreting conversion.
- `time.Time` values are their `UnixNano` value, an `Int`; each call of
  `Annotate` receives the current clock reading as an explicit argument.
- `*zipkincore.Endpoint` (a possibly-nil pointer) is `Option Endpoint`.
- `makeEndpoint` performs DNS lookups (`net.LookupIP`); its result is passed
  in as an `Option Endpoint` wherever the Go code calls it.
- `newID()` and `FromContext(ctx)` live outside the given source file; the
  fresh id is an explicit argument and the ambient context is the
  `Option Span` it would yield.
- Go slices of bytes are `List Nat`; a nil slice of wire records is `none`
  and an allocated (possibly empty) slice is `some xs`, so that "absent"
  versus "present but empty" is observable on the wire structure.
- The `Collector` is modelled by the list of spans handed to `Collect`.
-/

namespace Zipkin

/-- Embeds `zipkincore.Endpoint`: ipv4 (int32), port (int16), service name. -/
structure Endpoint where
  ipv4 : Int
  port : Int
  serviceName : String
deriving DecidableEq

/-- Embeds `zipkincore.AnnotationType` (BOOL, BYTES, I16, I32, I64, DOUBLE,
STRING). -/
inductive AnnType where
  | BOOL
  | BYTES
  | I16
  | I32
  | I64
  | DOUBLE
  | STRING
deriving DecidableEq

/-- Embeds the `annotation` record of span.go: a timestamp (UnixNano), a
string value and the endpoint captured at append time. -/
structure TimeAnn where
  timestamp : Int
  value : String
  host : Option Endpoint
deriving DecidableEq

/-- Embeds the `binaryAnnotation` record of span.go: key, encoded bytes,
type tag and the endpoint captured at append time. -/
structure BinAnn where
  key : String
  value : List Nat
  annType : AnnType
  host : Option Endpoint
deriving DecidableEq

/-- Embeds the `Span` struct of span.go. The Go fields `annotations` and
`binaryAnnotations` are `anns` and `binAnns` here. -/
structure Span where
  host : Option Endpoint
  methodName : String
  traceID : Int
  spanID : Int
  parentSpanID : Int
  anns : List TimeAnn
  binAnns : List BinAnn
  debug : Bool
  sampled : Bool
  runSampler : Bool
deriving DecidableEq

/-- Embeds `NewSpan`. The Go code computes the host by `makeEndpoint`,
which performs DNS I/O; its result is the `host` argument here. All other
flags take Go zero values except `runSampler`, set to true. -/
def NewSpan (host : Option Endpoint) (methodName : String)
    (traceID spanID parentSpanID : Int) : Span :=
  { host := host
    methodName := methodName
    traceID := traceID
    spanID := spanID
    parentSpanID := parentSpanID
    anns := []
    binAnns := []
    debug := false
    sampled := false
    runSampler := true }

/-- Embeds `binary.BigEndian.PutUint32` into a fresh 4-byte buffer: most
significant byte first. -/
def putUint32 (v : Nat) : List Nat :=
  [(v >>> 24) % 256, (v >>> 16) % 256, (v >>> 8) % 256, v % 256]

/-- Embeds `binary.BigEndian.PutUint64` into a fresh 8-byte buffer: most
significant byte first. -/
def putUint64 (v : Nat) : List Nat :=
  [(v >>> 56) % 256, (v >>> 48) % 256, (v >>> 40) % 256, (v >>> 32) % 256,
   (v >>> 24) % 256, (v >>> 16) % 256, (v >>> 8) % 256, v % 256]

/-- Reads a byte list as a big-endian unsigned integer (the inverse
direction of `binary.BigEndian.PutUint32`/`PutUint64`, used to state
round-trip properties). -/
def beGet (b : List Nat) : Nat :=
  b.foldl (fun acc x => acc * 256 + x) 0

/-- Embeds Go's conversion `uint32(v)` applied to a signed integer: the
value modulo `2 ^ 32` (two's-complement reinterpretation, which
sign-extends narrower signed values first). -/
def toUint32 (v : Int) : Nat :=
  (v % (2 ^ 32 : Int)).toNat

/-- Embeds Go's conversion `uint64(v)` applied to a signed integer. -/
def toUint64 (v : Int) : Nat :=
  (v % (2 ^ 64 : Int)).toNat

/-- Reads an unsigned 32-bit value as a signed int32 (two's complement),
used to state that signed inputs round-trip through their widened wire
form. -/
def toInt32 (n : Nat) : Int :=
  if n < 2 ^ 31 then (n : Int) else (n : Int) - 2 ^ 32

/-- Reads an unsigned 64-bit value as a signed int64 (two's complement). -/
def toInt64 (n : Nat) : Int :=
  if n < 2 ^ 63 then (n : Int) else (n : Int) - 2 ^ 64

/-- Embeds `[]byte(v)` on a Go string: its UTF-8 bytes. -/
def strBytes (v : String) : List Nat :=
  v.toUTF8.toList.map (fun b => b.toNat)

/-- The dynamic value handed to `AnnotateBinary` (a Go interface value),
as a closed sum over the cases of the type switch in span.go. Signed Go
integers carry an `Int`, unsigned ones a `Nat`; the platform-native `int`
and `uint` are 64-bit. The two float cases carry the IEEE-754 double bit
pattern that `math.Float64bits` produces for them (the float-to-bits step
is outside the integer model); the `other` case carries the string
rendering that `fmt.Sprintf` produces for the value. -/
inductive BinValue where
  | bool (v : Bool)
  | bytes (v : List Nat)
  | byte (v : Nat)
  | int8 (v : Int)
  | int16 (v : Int)
  | uint16 (v : Nat)
  | int32 (v : Int)
  | uint32 (v : Nat)
  | int64 (v : Int)
  | int (v : Int)
  | uint (v : Nat)
  | uint64 (v : Nat)
  | float32 (bits : Nat)
  | float64 (bits : Nat)
  | str (v : String)
  | other (rendered : String)
deriving DecidableEq

/-- Embeds the type switch of `AnnotateBinary`: returns the pair
(type tag `a`, encoded bytes `b`). The `int` and `uint` cases allocate an
8-byte buffer but `PutUint32` fills only its first four bytes, so the
remaining four stay zero, exactly as in the Go code. -/
def encodeBinValue : BinValue → AnnType × List Nat
  | .bool v => (.BOOL, if v then [1] else [0])
  | .bytes v => (.BYTES, v)
  | .byte v => (.I32, putUint32 (v % 2 ^ 32))
  | .int8 v => (.I32, putUint32 (toUint32 v))
  | .int16 v => (.I32, putUint32 (toUint32 v))
  | .uint16 v => (.I32, putUint32 (v % 2 ^ 32))
  | .int32 v => (.I32, putUint32 (toUint32 v))
  | .uint32 v => (.I32, putUint32 (v % 2 ^ 32))
  | .int64 v => (.I64, putUint64 (toUint64 v))
  | .int v => (.I32, putUint32 (toUint32 v) ++ [0, 0, 0, 0])
  | .uint v => (.I32, putUint32 (v % 2 ^ 32) ++ [0, 0, 0, 0])
  | .uint64 v => (.I64, putUint64 (v % 2 ^ 64))
  | .float32 bits => (.DOUBLE, putUint64 (bits % 2 ^ 64))
  | .float64 bits => (.DOUBLE, putUint64 (bits % 2 ^ 64))
  | .str v => (.STRING, strBytes v)
  | .other rendered => (.STRING, strBytes rendered)

/-- Embeds `Span.Annotate`: appends a timing record carrying the current
clock reading `now` (Go `time.Now()`), the value, and the span's current
host. -/
def Span.Annotate (s : Span) (now : Int) (value : String) : Span :=
  { s with anns := s.anns ++ [{ timestamp := now, value := value, host := s.host }] }

/-- Embeds `Span.AnnotateBinary`: encodes the value by the type switch and
appends a binary record carrying the span's current host. -/
def Span.AnnotateBinary (s : Span) (key : String) (value : BinValue) : Span :=
  let ab := encodeBinValue value
  { s with binAnns := s.binAnns ++ [{ key := key, value := ab.2, annType := ab.1, host := s.host }] }

/-- Embeds `Span.AnnotateString` (deprecated alias): appends a STRING
binary record with the raw UTF-8 bytes. -/
def Span.AnnotateString (s : Span) (key value : String) : Span :=
  { s with binAnns := s.binAnns ++ [{ key := key, value := strBytes value, annType := .STRING, host := s.host }] }

/-- Modelled from the spec: the constant `ClientSend` is defined outside
the provided source file; the spec's timeline example uses the value
"cs" for the client-send timing event. -/
def ClientSend : String := "cs"

/-- Modelled from the spec: the constant `ClientReceive` is defined outside
the provided source file; it names the client-receive timing event ("cr"
in the standard wire vocabulary the spec's example follows). -/
def ClientReceive : String := "cr"

/-- Modelled from the spec: the constant `ServerAddress` is defined outside
the provided source file; it keys the synthetic server-address binary
record ("sa" in the standard wire vocabulary). -/
def ServerAddress : String := "sa"

/-- Embeds the `ServerAddr` span option. The Go closure calls
`makeEndpoint(hostport, serviceName)` (DNS I/O); its result is the
argument `e` here. When resolution succeeds the closure saves the host,
swaps in the new endpoint, appends the ServerAddress BOOL annotation
through `AnnotateBinary`, and restores the saved host. -/
def ServerAddr (e : Option Endpoint) : Span → Span :=
  fun s =>
    match e with
    | none => s
    | some e =>
      let host := s.host
      let s1 : Span := { s with host := some e }
      let s2 := s1.AnnotateBinary ServerAddress (.bool true)
      { s2 with host := host }

/-- Embeds the `Host` span option: when `makeEndpoint` (result `e`)
succeeds, replace the span's default endpoint. -/
def Host (e : Option Endpoint) : Span → Span :=
  fun s =>
    match e with
    | none => s
    | some e => { s with host := some e }

/-- Embeds the `Debug` span option. -/
def Debug (debug : Bool) : Span → Span :=
  fun s => { s with debug := debug }

/-- Embeds the `CollectFunc` closure returned by `NewChildSpan`. The
no-ambient-span branch returns the literal no-op closure; the success
branch returns the closure whose captured `childSpan` variable (nilled
after the first call) is the `Option Span` state. -/
inductive CollectFunc where
  | noop
  | guarded (sp : Option Span)
deriving DecidableEq

/-- One invocation of a `CollectFunc`. `crNow` is the clock reading for the
client-receive timing record; `log` is the list of spans handed to the
Collector so far. Returns the closure's new state and the new log:
the guarded closure, while its captured span is non-nil, annotates
client-receive, hands the span to the Collector and nils its capture. -/
def CollectFunc.run (cf : CollectFunc) (crNow : Int) (log : List Span) :
    CollectFunc × List Span :=
  match cf with
  | .noop => (.noop, log)
  | .guarded none => (.guarded none, log)
  | .guarded (some sp) => (.guarded none, log ++ [sp.Annotate crNow ClientReceive])

/-- Iterates `CollectFunc.run` over a list of clock readings, one
invocation per reading. -/
def CollectFunc.runN (cf : CollectFunc) (crNows : List Int) (log : List Span) :
    CollectFunc × List Span :=
  match crNows with
  | [] => (cf, log)
  | t :: ts =>
    let r := cf.run t log
    CollectFunc.runN r.1 ts r.2

/-- Embeds `NewChildSpan`. The ambient context lookup `FromContext(ctx)`
is the `ctx : Option Span` argument, the generated `newID()` is `nid`,
and the clock reading of the client-send annotation is `csNow`. On a
missing ambient span it returns no span and the no-op closure; otherwise
it derives the child, annotates client-send, applies the options in
order, and returns the child together with the guarded one-shot closure
capturing it. -/
def NewChildSpan (ctx : Option Span) (methodName : String) (nid csNow : Int)
    (options : List (Span → Span)) : Option Span × CollectFunc :=
  match ctx with
  | none => (none, .noop)
  | some span =>
    let childSpan : Span :=
      { host := span.host
        methodName := methodName
        traceID := span.traceID
        spanID := nid
        parentSpanID := span.spanID
        anns := []
        binAnns := []
        debug := span.debug
        sampled := span.sampled
        runSampler := span.runSampler }
    let childSpan := childSpan.Annotate csNow ClientSend
    let childSpan := options.foldl (fun s o => o s) childSpan
    (some childSpan, .guarded (some childSpan))

/-- Embeds the wire `zipkincore.Annotation`: timestamp in microseconds
since epoch, value, host. -/
structure WireAnn where
  timestamp : Int
  value : String
  host : Option Endpoint
deriving DecidableEq

/-- Embeds the wire `zipkincore.BinaryAnnotation`. -/
structure WireBinAnn where
  key : String
  value : List Nat
  annType : AnnType
  host : Option Endpoint
deriving DecidableEq

/-- Embeds the wire `zipkincore.Span` produced by `Encode`. `parentId` is
the optional `*int64` field; the two lists are `Option` so that a Go nil
slice (`none`, absent) is distinguished from an allocated empty slice
(`some []`, present and zero-length). -/
structure WireSpan where
  traceId : Int
  name : String
  id : Int
  debug : Bool
  parentId : Option Int
  anns : Option (List WireAnn)
  binAnns : Option (List WireBinAnn)
deriving DecidableEq

/-- Embeds `Span.Encode`: copies ids, name and debug; sets `parentId` only
when `parentSpanID` is nonzero; allocates both wire lists with `make` and
fills them 1:1 in order. The Go timestamp conversion
`a.timestamp.UnixNano() / 1e3` is truncated division by 1000. -/
def Span.Encode (s : Span) : WireSpan :=
  { traceId := s.traceID
    name := s.methodName
    id := s.spanID
    debug := s.debug
    parentId := if s.parentSpanID ≠ 0 then some s.parentSpanID else none
    anns := some (s.anns.map (fun a =>
      { timestamp := Int.tdiv a.timestamp 1000, value := a.value, host := a.host }))
    binAnns := some (s.binAnns.map (fun a =>
      { key := a.key, value := a.value, annType := a.annType, host := a.host })) }

/-- The end-to-end example span of the spec: traceID 1, spanID 2,
parentSpanID 0 (host unresolved), then `annotate("cs")` at clock reading 0,
then `annotateBinary("http.status", 200)` — the Go literal 200 is a
platform-native `int`. -/
def exampleSpan : Span :=
  ((NewSpan none "method" 1 2 0).Annotate 0 "cs").AnnotateBinary
    "http.status" (.int 200)

/-- Big-endian 4-byte serialization followed by big-endian reading recovers
the value modulo `2 ^ 32`. -/
theorem beGet_putUint32 (n : Nat) : beGet (putUint32 n) = n % 2 ^ 32 := by
  simp only [beGet, putUint32, List.foldl, Nat.shiftRight_eq_div_pow]
  omega

/-- Big-endian 8-byte serialization followed by big-endian reading recovers
the value modulo `2 ^ 64`. -/
theorem beGet_putUint64 (n : Nat) : beGet (putUint64 n) = n % 2 ^ 64 := by
  simp only [beGet, putUint64, List.foldl, Nat.shiftRight_eq_div_pow]
  omega

/-- The 32-bit truncation of a signed value is below `2 ^ 32`. -/
theorem toUint32_lt (v : Int) : toUint32 v < 2 ^ 32 := by
  unfold toUint32
  omega

/-- The 64-bit truncation of a signed value is below `2 ^ 64`. -/
theorem toUint64_lt (v : Int) : toUint64 v < 2 ^ 64 := by
  unfold toUint64
  omega

/-- C1: with an ambient parent span in the context, `NewChildSpan` derives a
child whose host, traceID, debug, sampled and runSampler equal the
parent's, whose parentSpanID is the parent's spanID, and whose timing
list opens with the client-send record stamped with the parent's host;
this child is built before any option runs (the options fold over it),
and with no options it is returned as is. -/
theorem C1_child_derivation (parent : Span) (m : String) (nid csNow : Int) :
    ∃ c : Span,
      (NewChildSpan (some parent) m nid csNow []).1 = some c ∧
      c.host = parent.host ∧
      c.traceID = parent.traceID ∧
      c.parentSpanID = parent.spanID ∧
      c.debug = parent.debug ∧
      c.sampled = parent.sampled ∧
      c.runSampler = parent.runSampler ∧
      c.anns = [{ timestamp := csNow, value := ClientSend, host := parent.host }] ∧
      ∀ options : List (Span → Span),
        (NewChildSpan (some parent) m nid csNow options).1 =
          some (options.foldl (fun s o => o s) c) := by
  refine ⟨{ host := parent.host, methodName := m, traceID := parent.traceID,
            spanID := nid, parentSpanID := parent.spanID,
            anns := [{ timestamp := csNow, value := ClientSend, host := parent.host }],
            binAnns := [], debug := parent.debug, sampled := parent.sampled,
            runSampler := parent.runSampler },
          ?_, rfl, rfl, rfl, rfl, rfl, rfl, rfl, ?_⟩
  · simp [NewChildSpan, Span.Annotate]
  · intro options
    simp [NewChildSpan, Span.Annotate]

/-- C2: the finalize closure returned by `NewChildSpan` for a valid ambient
parent, invoked twice in sequence, appends the client-receive record and
hands the span to the Collector exactly once; the second invocation
changes neither the closure state nor the Collector log. -/
theorem C2_finalize_once (parent : Span) (m : String) (nid csNow t1 t2 : Int)
    (options : List (Span → Span)) :
    ∃ child : Span,
      (NewChildSpan (some parent) m nid csNow options).2 = .guarded (some child) ∧
      CollectFunc.run ((NewChildSpan (some parent) m nid csNow options).2) t1 [] =
        (.guarded none, [child.Annotate t1 ClientReceive]) ∧
      CollectFunc.run (.guarded none) t2 [child.Annotate t1 ClientReceive] =
        (.guarded none, [child.Annotate t1 ClientReceive]) ∧
      ([child.Annotate t1 ClientReceive] : List Span).length = 1 := by
  refine ⟨_, rfl, ?_, rfl, rfl⟩
  simp [NewChildSpan, CollectFunc.run]

/-- C5: with no ambient span in the context, `NewChildSpan` returns no span
together with the no-op closure, and any number of invocations of that
closure leaves the Collector log untouched. -/
theorem C5_no_parent (m : String) (nid csNow : Int)
    (options : List (Span → Span)) (crNows : List Int) (log : List Span) :
    NewChildSpan none m nid csNow options = (none, .noop) ∧
    CollectFunc.runN .noop crNows log = (.noop, log) := by
  refine ⟨rfl, ?_⟩
  induction crNows generalizing log with
  | nil => rfl
  | cons t ts ih => simpa [CollectFunc.runN, CollectFunc.run] using ih log

/-- C3: for a platform-native `int` or `uint`, `AnnotateBinary` appends a
record tagged I32 whose byte value is 8 bytes long: the first 4 bytes are
the big-endian 32-bit truncation of the input and the last 4 bytes are
zero (the buffer is allocated at 8 bytes, `PutUint32` fills only the
first four). -/
theorem C3_native_int_padding (s : Span) (k : String) (v : Int) (w : Nat) :
    ∃ bi bu : List Nat,
      (s.AnnotateBinary k (.int v)).binAnns =
        s.binAnns ++ [{ key := k, value := bi, annType := .I32, host := s.host }] ∧
      bi.length = 8 ∧
      bi.take 4 = putUint32 (toUint32 v) ∧
      beGet (bi.take 4) = toUint32 v ∧
      bi.drop 4 = [0, 0, 0, 0] ∧
      (s.AnnotateBinary k (.uint w)).binAnns =
        s.binAnns ++ [{ key := k, value := bu, annType := .I32, host := s.host }] ∧
      bu.length = 8 ∧
      bu.take 4 = putUint32 (w % 2 ^ 32) ∧
      beGet (bu.take 4) = w % 2 ^ 32 ∧
      bu.drop 4 = [0, 0, 0, 0] := by
  refine ⟨putUint32 (toUint32 v) ++ [0, 0, 0, 0],
          putUint32 (w % 2 ^ 32) ++ [0, 0, 0, 0],
          rfl, by simp [putUint32], by simp [putUint32], ?_, by simp [putUint32],
          rfl, by simp [putUint32], by simp [putUint32], ?_, by simp [putUint32]⟩
  · have h := beGet_putUint32 (toUint32 v)
    rw [Nat.mod_eq_of_lt (toUint32_lt v)] at h
    simpa [putUint32] using h
  · have h := beGet_putUint32 (w % 2 ^ 32)
    rw [Nat.mod_mod_of_dvd w (dvd_refl (2 ^ 32))] at h
    simpa [putUint32] using h

/-- C6: `Encode` sets the wire `parentId` exactly when `parentSpanID` is
nonzero, always allocates both wire lists (present, `some`), fills them
1:1 from the span's records in insertion order, and in particular yields
present zero-length lists for a span with no records; lengths are
preserved. (`Encode` is a pure function of the span in this embedding:
it reads the source span and cannot mutate it.) -/
theorem C6_encode_shape (s : Span) :
    s.Encode.parentId = (if s.parentSpanID ≠ 0 then some s.parentSpanID else none) ∧
    s.Encode.anns = some (s.anns.map (fun a =>
      { timestamp := Int.tdiv a.timestamp 1000, value := a.value, host := a.host })) ∧
    s.Encode.binAnns = some (s.binAnns.map (fun a =>
      { key := a.key, value := a.value, annType := a.annType, host := a.host })) ∧
    (s.parentSpanID = 0 → s.Encode.parentId = none) ∧
    (s.anns = [] → s.Encode.anns = some []) ∧
    (s.binAnns = [] → s.Encode.binAnns = some []) ∧
    (s.Encode.anns.getD []).length = s.anns.length ∧
    (s.Encode.binAnns.getD []).length = s.binAnns.length := by
  refine ⟨rfl, rfl, rfl, ?_, ?_, ?_, ?_, ?_⟩
  · intro h
    simp [Span.Encode, h]
  · intro h
    simp [Span.Encode, h]
  · intro h
    simp [Span.Encode, h]
  · simp [Span.Encode]
  · simp [Span.Encode]

/-- C6 witness: a concrete span with parentSpanID 0 and no records encodes
with absent parentId and present zero-length lists. -/
theorem C6_encode_shape_witness :
    (Span.Encode (NewSpan none "m" 1 2 0)).parentId = none ∧
    (Span.Encode (NewSpan none "m" 1 2 0)).anns = some [] ∧
    (Span.Encode (NewSpan none "m" 1 2 0)).binAnns = some [] :=
  ⟨(C6_encode_shape (NewSpan none "m" 1 2 0)).2.2.2.1 rfl,
   (C6_encode_shape (NewSpan none "m" 1 2 0)).2.2.2.2.1 rfl,
   (C6_encode_shape (NewSpan none "m" 1 2 0)).2.2.2.2.2.1 rfl⟩

/-- C7: annotations own the endpoint captured at append time. `Annotate`
stamps the span's host as of the call; applying the `Host` option leaves
every already-appended record (timing and binary) unchanged, and applying
the `ServerAddr` option leaves every already-appended record unchanged
(its swap of the span's host is invisible to them: the old binary records
survive as an unchanged list prefix). -/
theorem C7_host_capture (s : Span) (e : Option Endpoint) (now : Int) (v : String) :
    (s.Annotate now v).anns =
      s.anns ++ [{ timestamp := now, value := v, host := s.host }] ∧
    (Host e s).anns = s.anns ∧
    (Host e s).binAnns = s.binAnns ∧
    (ServerAddr e s).anns = s.anns ∧
    (∃ extra, (ServerAddr e s).binAnns = s.binAnns ++ extra) := by
  refine ⟨rfl, ?_, ?_, ?_, ?_⟩
  · cases e <;> rfl
  · cases e <;> rfl
  · cases e <;> rfl
  · cases e with
    | none => exact ⟨[], by simp [ServerAddr]⟩
    | some e =>
      exact ⟨[{ key := ServerAddress, value := [1], annType := .BOOL, host := some e }], rfl⟩

/-- C10: the `ServerAddr` option never changes the span's host: on failed
endpoint resolution the span is returned entirely unchanged, and on
success the whole effect is appending one binary record with key
`ServerAddress`, type BOOL, value 0x01, stamped with the newly resolved
endpoint, the previous host being restored. -/
theorem C10_serveraddr_frame (s : Span) (e : Endpoint) :
    ServerAddr none s = s ∧
    (ServerAddr (some e) s).host = s.host ∧
    ServerAddr (some e) s =
      { s with binAnns := s.binAnns ++
          [{ key := ServerAddress, value := [1], annType := .BOOL, host := some e }] } := by
  refine ⟨rfl, rfl, rfl⟩

/-- C8: every 8-, 16- or 32-bit integer value, signed or unsigned, is
appended by `AnnotateBinary` with tag I32 (never a 16-bit wire type) and
an exactly 4-byte big-endian value equal to the input widened to 32 bits:
reading the bytes back big-endian yields the value zero-extended for
unsigned inputs, and (via two's-complement reinterpretation) the original
signed value for sign-extended signed inputs. -/
theorem C8_small_int_widening :
    (∀ (s : Span) (k : String) (val : BinValue),
      (s.AnnotateBinary k val).binAnns =
        s.binAnns ++ [{ key := k, value := (encodeBinValue val).2,
                        annType := (encodeBinValue val).1, host := s.host }]) ∧
    (∀ v : Nat, v < 2 ^ 8 →
      (encodeBinValue (.byte v)).1 = .I32 ∧
      (encodeBinValue (.byte v)).2.length = 4 ∧
      beGet (encodeBinValue (.byte v)).2 = v) ∧
    (∀ v : Int, -(2 ^ 7) ≤ v → v < 2 ^ 7 →
      (encodeBinValue (.int8 v)).1 = .I32 ∧
      (encodeBinValue (.int8 v)).2.length = 4 ∧
      toInt32 (beGet (encodeBinValue (.int8 v)).2) = v) ∧
    (∀ v : Int, -(2 ^ 15) ≤ v → v < 2 ^ 15 →
      (encodeBinValue (.int16 v)).1 = .I32 ∧
      (encodeBinValue (.int16 v)).2.length = 4 ∧
      toInt32 (beGet (encodeBinValue (.int16 v)).2) = v) ∧
    (∀ v : Nat, v < 2 ^ 16 →
      (encodeBinValue (.uint16 v)).1 = .I32 ∧
      (encodeBinValue (.uint16 v)).2.length = 4 ∧
      beGet (encodeBinValue (.uint16 v)).2 = v) ∧
    (∀ v : Int, -(2 ^ 31) ≤ v → v < 2 ^ 31 →
      (encodeBinValue (.int32 v)).1 = .I32 ∧
      (encodeBinValue (.int32 v)).2.length = 4 ∧
      toInt32 (beGet (encodeBinValue (.int32 v)).2) = v) ∧
    (∀ v : Nat, v < 2 ^ 32 →
      (encodeBinValue (.uint32 v)).1 = .I32 ∧
      (encodeBinValue (.uint32 v)).2.length = 4 ∧
      beGet (encodeBinValue (.uint32 v)).2 = v) := by
  refine ⟨fun s k val => rfl, ?_, ?_, ?_, ?_, ?_, ?_⟩
  · intro v hv
    refine ⟨rfl, by simp [encodeBinValue, putUint32], ?_⟩
    simp only [encodeBinValue]
    rw [beGet_putUint32]
    omega
  · intro v h1 h2
    refine ⟨rfl, by simp [encodeBinValue, putUint32], ?_⟩
    simp only [encodeBinValue]
    rw [beGet_putUint32, Nat.mod_eq_of_lt (toUint32_lt v)]
    simp only [toInt32, toUint32]
    split <;> omega
  · intro v h1 h2
    refine ⟨rfl, by simp [encodeBinValue, putUint32], ?_⟩
    simp only [encodeBinValue]
    rw [beGet_putUint32, Nat.mod_eq_of_lt (toUint32_lt v)]
    simp only [toInt32, toUint32]
    split <;> omega
  · intro v hv
    refine ⟨rfl, by simp [encodeBinValue, putUint32], ?_⟩
    simp only [encodeBinValue]
    rw [beGet_putUint32]
    omega
  · intro v h1 h2
    refine ⟨rfl, by simp [encodeBinValue, putUint32], ?_⟩
    simp only [encodeBinValue]
    rw [beGet_putUint32, Nat.mod_eq_of_lt (toUint32_lt v)]
    simp only [toInt32, toUint32]
    split <;> omega
  · intro v hv
    refine ⟨rfl, by simp [encodeBinValue, putUint32], ?_⟩
    simp only [encodeBinValue]
    rw [beGet_putUint32]
    omega

/-- C8 witness: a negative int8 and a maximal uint16 instantiate the
sign-extended and zero-extended cases. -/
theorem C8_small_int_widening_witness :
    ((encodeBinValue (.int8 (-5))).1 = AnnType.I32 ∧
     (encodeBinValue (.int8 (-5))).2.length = 4 ∧
     toInt32 (beGet (encodeBinValue (.int8 (-5))).2) = -5) ∧
    ((encodeBinValue (.uint16 65535)).1 = AnnType.I32 ∧
     (encodeBinValue (.uint16 65535)).2.length = 4 ∧
     beGet (encodeBinValue (.uint16 65535)).2 = 65535) :=
  ⟨C8_small_int_widening.2.2.1 (-5) (by decide) (by decide),
   C8_small_int_widening.2.2.2.2.1 65535 (by decide)⟩

/-- C9: every 64-bit integer value is appended by `AnnotateBinary` with tag
I64 and an 8-byte big-endian value, and reading the 8 bytes back as a
big-endian 64-bit integer recovers the original value exactly (through
two's-complement reinterpretation for signed inputs). -/
theorem C9_i64_roundtrip :
    (∀ (s : Span) (k : String) (v : Int),
      (s.AnnotateBinary k (.int64 v)).binAnns =
        s.binAnns ++ [{ key := k, value := putUint64 (toUint64 v),
                        annType := .I64, host := s.host }]) ∧
    (∀ (s : Span) (k : String) (w : Nat),
      (s.AnnotateBinary k (.uint64 w)).binAnns =
        s.binAnns ++ [{ key := k, value := putUint64 (w % 2 ^ 64),
                        annType := .I64, host := s.host }]) ∧
    (∀ v : Int, -(2 ^ 63) ≤ v → v < 2 ^ 63 →
      (putUint64 (toUint64 v)).length = 8 ∧
      toInt64 (beGet (putUint64 (toUint64 v))) = v) ∧
    (∀ w : Nat, w < 2 ^ 64 →
      (putUint64 (w % 2 ^ 64)).length = 8 ∧
      beGet (putUint64 (w % 2 ^ 64)) = w) := by
  refine ⟨fun s k v => rfl, fun s k w => rfl, ?_, ?_⟩
  · intro v h1 h2
    refine ⟨by simp [putUint64], ?_⟩
    rw [beGet_putUint64, Nat.mod_eq_of_lt (toUint64_lt v)]
    simp only [toInt64, toUint64]
    split <;> omega
  · intro w h
    refine ⟨by simp [putUint64], ?_⟩
    rw [beGet_putUint64, Nat.mod_mod_of_dvd w (dvd_refl (2 ^ 64))]
    omega

/-- C9 witness: a negative int64 and a small uint64 round-trip through the
8-byte big-endian wire value. -/
theorem C9_i64_roundtrip_witness :
    ((putUint64 (toUint64 (-2))).length = 8 ∧
     toInt64 (beGet (putUint64 (toUint64 (-2)))) = -2) ∧
    ((putUint64 (300 % 2 ^ 64)).length = 8 ∧
     beGet (putUint64 (300 % 2 ^ 64)) = 300) :=
  ⟨C9_i64_roundtrip.2.2.1 (-2) (by decide) (by decide),
   C9_i64_roundtrip.2.2.2 300 (by decide)⟩

/-- C4 counterexample: in the spec's end-to-end example the Go literal 200
is a platform-native `int`, so the encoded binary-annotation value is the
8-byte sequence 00 00 00 C8 00 00 00 00, not exactly the 4-byte sequence
00 00 00 C8 the claim states. -/
theorem C4_example_counterexample :
    ((exampleSpan.Encode).binAnns.getD []).map (fun a => a.value) =
      [[0, 0, 0, 200, 0, 0, 0, 0]] ∧
    ¬ ((exampleSpan.Encode).binAnns.getD []).map (fun a => a.value) =
      [[0, 0, 0, 200]] := by
  constructor
  · rfl
  · decide

/-- C4 amended: the example's encoded output has one timing annotation with
value "cs", one binary annotation with key "http.status", tag I32 and
value 00 00 00 C8 00 00 00 00 (the 4-byte big-endian 200 followed by the
4 zero padding bytes of the over-allocated buffer), and no parentId. -/
theorem C4_example_encoding :
    exampleSpan.Encode =
      { traceId := 1, name := "method", id := 2, debug := false,
        parentId := none,
        anns := some [{ timestamp := 0, value := "cs", host := none }],
        binAnns := some [{ key := "http.status",
                           value := [0, 0, 0, 200, 0, 0, 0, 0],
                           annType := .I32, host := none }] } := by
  rfl

end Zipkin
